import Mathlib

set_option linter.unusedVariables false

/-!
Shallow embedding of the fan-out metric writer of this repository:
the InfluxDB output plugin (frequency-table debug sampler, randomized
first-success write dispatcher, connect phase with database creation)
and the Graphite output plugin (debug filter pass, randomized
first-success write loop, reconnect-after-failure).

External effects (network writes, dials, database creation, clock) are
supplied as data: each endpoint carries the outcome its write (and, for
InfluxDB, its CREATE DATABASE query) would produce, and the dispatcher
is a pure function of those outcomes plus the random permutation drawn
for the call.
-/

/-- Does the second character list start with the first one? -/
def charsHasPre : List Char → List Char → Bool
  | [], _ => true
  | _ :: _, [] => false
  | a :: as, b :: bs => a == b && charsHasPre as bs

/-- Does the second character list contain the first one as a contiguous run? -/
def charsHasSub (pat : List Char) : List Char → Bool
  | [] => pat.isEmpty
  | l@(_ :: rest) => charsHasPre pat l || charsHasSub pat rest

/-- strings.Contains(s, pat): substring containment test. -/
def strContains (s pat : String) : Bool :=
  charsHasSub pat.toList s.toList

/-- Lookup in a Go map modelled as an association list (first match wins). -/
def alookup {β : Type} : List (String × β) → String → Option β
  | [], _ => none
  | (k, v) :: rest, key => if k = key then some v else alookup rest key

/-- Go map assignment m[key] = x: replace the entry if present, else add it. -/
def setAssoc {β : Type} : List (String × β) → String → β → List (String × β)
  | [], key, x => [(key, x)]
  | (k, v) :: rest, key, x =>
    if k = key then (key, x) :: rest else (k, v) :: setAssoc rest key x

/-- Innermost level of the frequency table: tag value → count (int64). -/
abbrev ValMap := List (String × Int)

/-- Middle level: tag name → value counts. -/
abbrev TagMap := List (String × ValMap)

/-- freqTable: measurement name → tag name → tag value → count. -/
abbrev FreqTable := List (String × TagMap)

/-- Three-level lookup freqTable[m][tn][tv]. -/
def freqLookup (t : FreqTable) (m tn tv : String) : Option Int :=
  (alookup t m).bind fun mm => (alookup mm tn).bind fun vm => alookup vm tv

/-- A metric as the writer sees it: Name(), Tags(), and String(). -/
structure Metric where
  name : String
  tags : List (String × String)
  str : String
deriving DecidableEq

/-- One tag observation, influxdb.go lines 255-261: create the tag-name map if
missing, set a missing value entry to 1, then increment it. -/
def bumpTag (mm : TagMap) (tn tv : String) : TagMap :=
  let mm1 := if (alookup mm tn).isNone then setAssoc mm tn [] else mm
  let vm := (alookup mm1 tn).getD []
  let vm1 := if (alookup vm tv).isNone then setAssoc vm tv 1 else vm
  let vm2 := setAssoc vm1 tv ((alookup vm1 tv).getD 0 + 1)
  setAssoc mm1 tn vm2

/-- The per-metric tag loop, influxdb.go lines 254-262. -/
def sampleTags (mName : String) (tags : List (String × String)) (t0 : FreqTable) : FreqTable :=
  tags.foldl (fun t p => setAssoc t mName (bumpTag ((alookup t mName).getD []) p.1 p.2)) t0

/-- Meta-metric collection for one metric, influxdb.go lines 249-262: create the
measurement map if missing, then run the tag loop. -/
def sampleMetric (t : FreqTable) (mt : Metric) : FreqTable :=
  sampleTags mt.name mt.tags
    (if (alookup t mt.name).isNone then setAssoc t mt.name [] else t)

/-- The debug-sampling pass over a batch, influxdb.go lines 241-263: while
doDebug holds, fold the filter-containment test into doDebug and collect the
metric into the frequency table; once doDebug is false nothing more happens.
Returns the final doDebug flag and the updated table. -/
def debugLoop (flt : String) : List Metric → Bool → FreqTable → Bool × FreqTable
  | [], dbg, t => (dbg, t)
  | mt :: rest, dbg, t =>
    if dbg then
      debugLoop flt rest (dbg && strContains mt.str flt) (sampleMetric t mt)
    else
      debugLoop flt rest dbg t

/-- An InfluxDB endpoint, holding the outcomes its external calls would
produce during this write call: the result of conns[n].Write(bp) and the
result of a createDatabase query against it (none = success). -/
structure Endpoint where
  writeResult : Option String
  createDbResult : Option String
deriving DecidableEq

/-- Default endpoint for out-of-range indexing (never reached on the
in-range permutations the program produces). -/
def epDflt : Endpoint := ⟨some "", none⟩

/-- The substring the write loop pattern-matches to classify an error as
namespace-missing, influxdb.go line 276. -/
def dbNotFound : String := "database not found"

/-- The collective failure, influxdb.go line 268. -/
def influxCollectiveErr : String := "Could not write to any InfluxDB server in cluster"

/-- Observable events of the InfluxDB write loop: a write attempt against
endpoint index n, or a createDatabase repair against it (ok = repair
succeeded). -/
inductive Ev where
  | attempt (n : Nat)
  | repair (n : Nat) (ok : Bool)
deriving DecidableEq

/-- The permutation trial loop, influxdb.go lines 268-286: attempt each index
in order; on failure log, repair once when the error text contains the
namespace-missing marker, and continue; on success stop with err = nil; if the
list is exhausted the collective error stands. Returns the final err and the
event trace. -/
def writeLoop (conns : List Endpoint) : List Nat → Option String × List Ev
  | [] => (some influxCollectiveErr, [])
  | n :: rest =>
    match (conns.getD n epDflt).writeResult with
    | none => (none, [Ev.attempt n])
    | some e =>
      let evs := if strContains e dbNotFound
        then [Ev.repair n ((conns.getD n epDflt).createDbResult).isNone]
        else ([] : List Ev)
      let r := writeLoop conns rest
      (r.1, Ev.attempt n :: (evs ++ r.2))

/-- The indices of the write attempts in a trace, in order. -/
def attemptsOf : List Ev → List Nat
  | [] => []
  | Ev.attempt n :: r => n :: attemptsOf r
  | Ev.repair _ _ :: r => attemptsOf r

/-- Number of repair attempts in a trace. -/
def repairsOf : List Ev → Nat
  | [] => 0
  | Ev.attempt _ :: r => repairsOf r
  | Ev.repair _ _ :: r => repairsOf r + 1

/-- One line of the frequency-table dump. -/
structure ReportRow where
  measurement : String
  tagCount : Nat
  seriesCardinality : Nat
  dataPoints : Int
  worstTag : String
  worstTagCard : Nat
deriving DecidableEq

/-- Accumulator of the per-measurement loop of DumpFreqTable. -/
structure MeasAcc where
  tagCount : Nat
  tagValueCount : Nat
  dataPointCount : Int
  maxTagLen : Nat
  maxTagName : String

/-- The per-measurement body of DumpFreqTable, influxdb.go lines 42-59. -/
def measureRow (mName : String) (mm : TagMap) : ReportRow :=
  let acc : MeasAcc := mm.foldl
    (fun acc p =>
      let tagCount := acc.tagCount + 1
      let tagLen := p.2.length
      let mx := if tagLen > acc.maxTagLen then (tagLen, p.1) else (acc.maxTagLen, acc.maxTagName)
      let inner := p.2.foldl (fun (q : Nat × Int) r => (q.1 + 1, q.2 + r.2))
        (acc.tagValueCount, acc.dataPointCount)
      ⟨tagCount, inner.1, inner.2, mx.1, mx.2⟩)
    ⟨0, 0, 0, 0, ""⟩
  ⟨mName, acc.tagCount, acc.tagValueCount, acc.dataPointCount, acc.maxTagName, acc.maxTagLen⟩

/-- DumpFreqTable, influxdb.go lines 39-61: one report row per measurement;
reads the table, returns the report, changes nothing. -/
def dumpFreqTable (t : FreqTable) : List ReportRow :=
  t.map fun p => measureRow p.1 p.2

/-- Inputs of one InfluxDB.Write call: the current pool, the outcome a
Connect() call would have (consulted only when the pool is empty), the outcome
of NewBatchPoints, the configured debug filter, the batch, the permutation
rand.Perm drew for this call, and the current clock reading (nanoseconds,
same scale as the lastDump timestamp). -/
structure InfluxInput where
  conns : List Endpoint
  connect : Except String (List Endpoint)
  batchErr : Option String
  debugFilter : String
  metrics : List Metric
  perm : List Nat
  now : Int

/-- Results of one InfluxDB.Write call: the returned error, the frequency
table and lastDump timestamp after the call, the write-loop event trace, and
the dump report when one was emitted. -/
structure WriteOut where
  err : Option String
  freq : FreqTable
  lastDump : Int
  trace : List Ev
  report : Option (List ReportRow)

/-- InfluxDB.Write, influxdb.go lines 224-298. An empty pool triggers Connect
first (its error propagates); then NewBatchPoints; then the debug-sampling
pass; then the permutation trial loop; finally, if sampling is still active,
the dump gate compares the elapsed time against 60 seconds and emits the
report after resetting lastDump. The Go test is elapsed.Seconds() > 60 on a
nanosecond duration, which for int64 durations is exactly elapsed
nanoseconds > 60 * 10^9. -/
def influxWrite (inp : InfluxInput) (freq : FreqTable) (lastDump : Int) : WriteOut :=
  match (if inp.conns.isEmpty then inp.connect else Except.ok inp.conns) with
  | Except.error e => ⟨some e, freq, lastDump, [], none⟩
  | Except.ok conns =>
    match inp.batchErr with
    | some e => ⟨some e, freq, lastDump, [], none⟩
    | none =>
      let r := debugLoop inp.debugFilter inp.metrics (inp.debugFilter.length != 0) freq
      let w := writeLoop conns inp.perm
      if r.1 then
        if inp.now - lastDump > 60 * 1000000000 then
          ⟨w.1, r.2, inp.now, w.2, some (dumpFreqTable r.2)⟩
        else ⟨w.1, r.2, lastDump, w.2, none⟩
      else ⟨w.1, r.2, lastDump, w.2, none⟩

/-- A sequence of InfluxDB.Write calls threading the process-wide frequency
table and lastDump timestamp. -/
def writeSeq (inps : List InfluxInput) (s : FreqTable × Int) : FreqTable × Int :=
  inps.foldl (fun s inp =>
    let o := influxWrite inp s.1 s.2
    (o.freq, o.lastDump)) s

/-- A Graphite endpooint: the outcome of conns[n].Write(batch). -/
structure GEndpoint where
  writeResult : Option String
deriving DecidableEq

/-- Default Graphite endpoint for out-of-range indexing. -/
def gEpDflt : GEndpoint := ⟨some ""⟩

/-- The collective failure, graphite.go line 113. -/
def graphiteCollectiveErr : String := "Could not write to any Graphite server in cluster\n"

/-- The Graphite permutation trial loop, graphite.go lines 116-130: attempt
each index in order, log failures and continue, stop at the first success.
Returns the final err and the attempted indices in order. -/
def graphiteLoop (conns : List GEndpoint) : List Nat → Option String × List Nat
  | [] => (some graphiteCollectiveErr, [])
  | n :: rest =>
    match (conns.getD n gEpDflt).writeResult with
    | none => (none, [n])
    | some _ =>
      let r := graphiteLoop conns rest
      (r.1, n :: r.2)

/-- Graphite.Connect, graphite.go lines 42-60: dial every server, keep the
successful connections, and always return nil (dial failures are silently
dropped). The dial outcomes are supplied as data. -/
def graphiteConnect (dials : List (Option GEndpoint)) : Option String × List GEndpoint :=
  (none, dials.filterMap id)

/-- Results of one Graphite.Write call: the returned error, the attempted
indices, and the connection pool after the call. -/
structure GOut where
  err : Option String
  attempts : List Nat
  conns : List GEndpoint
deriving DecidableEq

/-- Graphite.Write, graphite.go lines 80-136: serializer construction error is
fatal; otherwise run the permutation trial loop over the current pool; when it
fails, reconnect (after the loop) and still return the loop's error. No
connect happens before the attempts. -/
def graphiteWrite (serErr : Option String) (conns : List GEndpoint) (perm : List Nat)
    (dials : List (Option GEndpoint)) : GOut :=
  match serErr with
  | some e => ⟨some e, [], conns⟩
  | none =>
    let r := graphiteLoop conns perm
    match r.1 with
    | some e => ⟨some e, r.2, (graphiteConnect dials).2⟩
    | none => ⟨none, r.2, conns⟩

/-- One configured InfluxDB URL in the connect phase: the outcome of building
its client handle (url.Parse/NewUDPClient for udp, NewHTTPClient for http),
and for http additionally the outcome of the createDatabase query. -/
inductive EndpointCfg where
  | udp (buildErr : Option String)
  | http (buildErr : Option String) (createDbErr : Option String)
deriving DecidableEq

/-- The per-URL loop of InfluxDB.Connect, influxdb.go lines 145-186: a handle
build failure aborts the whole connect with that error; an http endpoint whose
createDatabase query fails is logged and skipped (not appended to conns);
otherwise the endpoint is kept. -/
def connectLoop : List EndpointCfg → Except String (List EndpointCfg)
  | [] => Except.ok []
  | EndpointCfg.udp berr :: rest =>
    match berr with
    | some e => Except.error e
    | none =>
      match connectLoop rest with
      | Except.error e => Except.error e
      | Except.ok l => Except.ok (EndpointCfg.udp none :: l)
  | EndpointCfg.http berr cerr :: rest =>
    match berr with
    | some e => Except.error e
    | none =>
      match cerr with
      | some _ => connectLoop rest
      | none =>
        match connectLoop rest with
        | Except.error e => Except.error e
        | Except.ok l => Except.ok (EndpointCfg.http none none :: l)

/-- InfluxDB.Connect, influxdb.go lines 126-191: a TLS-config error aborts
before the per-URL loop; otherwise the kept endpoints become the new pool. -/
def influxConnect (tlsErr : Option String) (cfgs : List EndpointCfg) :
    Except String (List EndpointCfg) :=
  match tlsErr with
  | some e => Except.error e
  | none => connectLoop cfgs

/-- Table ordering: every entry of the first table is still present in the
second with a count at least as large (no removal, no decrease). -/
def tableLE (t1 t2 : FreqTable) : Prop :=
  ∀ m tn tv c, freqLookup t1 m tn tv = some c →
    ∃ c2, freqLookup t2 m tn tv = some c2 ∧ c ≤ c2

theorem alookup_setAssoc_self {β : Type} (l : List (String × β)) (k : String) (x : β) :
    alookup (setAssoc l k x) k = some x := by
  induction l with
  | nil => simp [setAssoc, alookup]
  | cons hd tl ih =>
    obtain ⟨k1, v1⟩ := hd
    by_cases h : k1 = k
    · simp [setAssoc, h, alookup]
    · simp [setAssoc, h, alookup, ih]

theorem alookup_setAssoc_ne {β : Type} (l : List (String × β)) (k : String) (x : β)
    (k2 : String) (h : k2 ≠ k) :
    alookup (setAssoc l k x) k2 = alookup l k2 := by
  induction l with
  | nil => simp [setAssoc, alookup, Ne.symm h]
  | cons hd tl ih =>
    obtain ⟨k1, v1⟩ := hd
    by_cases h1 : k1 = k
    · subst h1
      simp [setAssoc, alookup, Ne.symm h]
    · simp [setAssoc, h1, alookup, ih]

theorem tableLE_refl (t : FreqTable) : tableLE t t :=
  fun _ _ _ c h => ⟨c, h, le_refl c⟩

theorem tableLE_trans {a b c : FreqTable} (h1 : tableLE a b) (h2 : tableLE b c) :
    tableLE a c := by
  intro m tn tv x hx
  obtain ⟨y, hy, hxy⟩ := h1 m tn tv x hx
  obtain ⟨z, hz, hyz⟩ := h2 m tn tv y hy
  exact ⟨z, hz, le_trans hxy hyz⟩

theorem bumpTag_lookup_le (mm : TagMap) (tn0 tv0 tn tv : String) (c : Int)
    (h : (alookup mm tn).bind (fun vm => alookup vm tv) = some c) :
    ∃ c2, (alookup (bumpTag mm tn0 tv0) tn).bind (fun vm => alookup vm tv) = some c2 ∧
      c ≤ c2 := by
  obtain ⟨vmOld, hvm, hc⟩ : ∃ vm, alookup mm tn = some vm ∧ alookup vm tv = some c := by
    cases hm : alookup mm tn with
    | none => rw [hm] at h; simp at h
    | some vm => rw [hm] at h; exact ⟨vm, rfl, by simpa using h⟩
  by_cases htn : tn = tn0
  · subst htn
    by_cases htv : tv = tv0
    · subst htv
      refine ⟨c + 1, ?_, by omega⟩
      simp only [bumpTag, hvm, Option.isNone_some, Bool.false_eq_true, if_false,
        Option.getD_some, hc, alookup_setAssoc_self, Option.some_bind]
    · refine ⟨c, ?_, le_refl c⟩
      simp only [bumpTag, hvm, Option.isNone_some, Bool.false_eq_true, if_false,
        Option.getD_some, alookup_setAssoc_self, Option.some_bind]
      rw [alookup_setAssoc_ne _ _ _ _ htv]
      cases hv0 : alookup vmOld tv0 with
      | none =>
        simp only [hv0, Option.isNone_none, if_true]
        rw [alookup_setAssoc_ne _ _ _ _ htv]
        exact hc
      | some v0 =>
        simp only [hv0, Option.isNone_some, Bool.false_eq_true, if_false]
        exact hc
  · refine ⟨c, ?_, le_refl c⟩
    simp only [bumpTag]
    rw [alookup_setAssoc_ne _ _ _ _ htn]
    cases hm0 : alookup mm tn0 with
    | none =>
      simp only [hm0, Option.isNone_none, if_true]
      rw [alookup_setAssoc_ne _ _ _ _ htn, hvm]
      simpa using hc
    | some m0 =>
      simp only [hm0, Option.isNone_some, Bool.false_eq_true, if_false]
      rw [hvm]
      simpa using hc

theorem setBump_le (t : FreqTable) (mName tn0 tv0 : String) :
    tableLE t (setAssoc t mName (bumpTag ((alookup t mName).getD []) tn0 tv0)) := by
  intro m tn tv c h
  by_cases hm : m = mName
  · subst hm
    obtain ⟨mmOld, hmm, hin⟩ :
        ∃ mm, alookup t m = some mm ∧
          (alookup mm tn).bind (fun vm => alookup vm tv) = some c := by
      cases hmm : alookup t m with
      | none => unfold freqLookup at h; rw [hmm] at h; simp at h
      | some mm =>
        unfold freqLookup at h; rw [hmm] at h
        exact ⟨mm, rfl, by simpa using h⟩
    obtain ⟨c2, h2, hle⟩ := bumpTag_lookup_le mmOld tn0 tv0 tn tv c hin
    refine ⟨c2, ?_, hle⟩
    unfold freqLookup
    rw [alookup_setAssoc_self, hmm]
    simpa using h2
  · refine ⟨c, ?_, le_refl c⟩
    unfold freqLookup at h ⊢
    rw [alookup_setAssoc_ne _ _ _ _ hm]
    exact h

theorem sampleTags_le (mName : String) (tags : List (String × String)) (t : FreqTable) :
    tableLE t (sampleTags mName tags t) := by
  induction tags generalizing t with
  | nil => exact tableLE_refl t
  | cons p rest ih =>
    have h1 := setBump_le t mName p.1 p.2
    have h2 := ih (setAssoc t mName (bumpTag ((alookup t mName).getD []) p.1 p.2))
    simpa [sampleTags] using tableLE_trans h1 h2

theorem initMeasure_le (t : FreqTable) (mName : String) :
    tableLE t (if (alookup t mName).isNone then setAssoc t mName [] else t) := by
  intro m tn tv c h
  cases hmm : alookup t mName with
  | some mm =>
    refine ⟨c, ?_, le_refl c⟩
    simp only [hmm, Option.isNone_some, Bool.false_eq_true, if_false]
    exact h
  | none =>
    refine ⟨c, ?_, le_refl c⟩
    simp only [hmm, Option.isNone_none, if_true]
    by_cases hm : m = mName
    · subst hm
      unfold freqLookup at h
      rw [hmm] at h
      simp at h
    · unfold freqLookup at h ⊢
      rw [alookup_setAssoc_ne _ _ _ _ hm]
      exact h

theorem sampleMetric_le (t : FreqTable) (mt : Metric) :
    tableLE t (sampleMetric t mt) := by
  unfold sampleMetric
  exact tableLE_trans (initMeasure_le t mt.name) (sampleTags_le mt.name mt.tags _)

theorem debugLoop_le (flt : String) (ms : List Metric) (dbg : Bool) (t : FreqTable) :
    tableLE t (debugLoop flt ms dbg t).2 := by
  induction ms generalizing dbg t with
  | nil => exact tableLE_refl t
  | cons mt rest ih =>
    cases dbg with
    | false => simpa [debugLoop] using ih false t
    | true =>
      have h1 := sampleMetric_le t mt
      have h2 := ih (true && strContains mt.str flt) (sampleMetric t mt)
      simpa [debugLoop] using tableLE_trans h1 h2

theorem debugLoop_offFalse (flt : String) (ms : List Metric) (t : FreqTable) :
    debugLoop flt ms false t = (false, t) := by
  induction ms with
  | nil => rfl
  | cons mt rest ih => simpa [debugLoop] using ih

theorem debugLoop_matched (flt : String) (pre : List Metric) (t : FreqTable)
    (h : ∀ x ∈ pre, strContains x.str flt = true) :
    debugLoop flt pre true t = (true, pre.foldl sampleMetric t) := by
  induction pre generalizing t with
  | nil => rfl
  | cons mt rest ih =>
    have hmt := h mt (List.mem_cons_self mt rest)
    have hrest := ih (sampleMetric t mt) (fun x hx => h x (List.mem_cons_of_mem mt hx))
    simpa [debugLoop, hmt] using hrest

theorem debugLoop_append (flt : String) (l1 l2 : List Metric) (dbg : Bool) (t : FreqTable) :
    debugLoop flt (l1 ++ l2) dbg t =
      debugLoop flt l2 (debugLoop flt l1 dbg t).1 (debugLoop flt l1 dbg t).2 := by
  induction l1 generalizing dbg t with
  | nil => rfl
  | cons mt rest ih => cases dbg <;> simp [debugLoop, ih]

theorem attemptsOf_append (l1 l2 : List Ev) :
    attemptsOf (l1 ++ l2) = attemptsOf l1 ++ attemptsOf l2 := by
  induction l1 with
  | nil => rfl
  | cons e r ih => cases e <;> simp [attemptsOf, ih]

theorem writeLoop_allFail (conns : List Endpoint) (p : List Nat)
    (h : ∀ n ∈ p, ((conns.getD n epDflt).writeResult).isSome = true) :
    (writeLoop conns p).1 = some influxCollectiveErr ∧
    attemptsOf (writeLoop conns p).2 = p := by
  induction p with
  | nil => exact ⟨rfl, rfl⟩
  | cons n rest ih =>
    have hn := h n (List.mem_cons_self n rest)
    obtain ⟨e, he⟩ := Option.isSome_iff_exists.mp hn
    have ihr := ih (fun m hm => h m (List.mem_cons_of_mem n hm))
    unfold writeLoop
    rw [he]
    refine ⟨ihr.1, ?_⟩
    by_cases hdb : strContains e dbNotFound = true
    · simp [hdb, attemptsOf, attemptsOf_append, ihr.2]
    · simp [hdb, attemptsOf, attemptsOf_append, ihr.2]

theorem writeLoop_firstSuccess (conns : List Endpoint) (xs ys : List Nat) (n : Nat)
    (hn : (conns.getD n epDflt).writeResult = none) :
    (writeLoop conns (xs ++ n :: ys)).1 = none ∧
    writeLoop conns (xs ++ n :: ys) = writeLoop conns (xs ++ [n]) ∧
    ∀ k, Ev.attempt k ∈ (writeLoop conns (xs ++ n :: ys)).2 → k ∈ xs ++ [n] := by
  induction xs with
  | nil =>
    simp only [List.nil_append]
    unfold writeLoop
    rw [hn]
    refine ⟨rfl, rfl, ?_⟩
    intro k hk
    simp only [List.mem_singleton, Ev.attempt.injEq] at hk
    simp [hk]
  | cons m xs ih =>
    obtain ⟨ih1, ih2, ih3⟩ := ih
    cases hm : (conns.getD m epDflt).writeResult with
    | none =>
      simp only [List.cons_append]
      unfold writeLoop
      rw [hm]
      refine ⟨rfl, rfl, ?_⟩
      intro k hk
      simp only [List.mem_singleton, Ev.attempt.injEq] at hk
      simp [hk]
    | some e =>
      simp only [List.cons_append]
      unfold writeLoop
      rw [hm]
      dsimp only
      refine ⟨ih1, ?_, ?_⟩
      · rw [ih2]
      · intro k hk
        simp only [List.mem_cons, List.mem_append, Ev.attempt.injEq] at hk
        rcases hk with hk | hk
        · simp [hk]
        · rcases hk with hk | hk
          · by_cases hdb : strContains e dbNotFound = true
            · rw [if_pos hdb] at hk
              simp at hk
            · rw [if_neg hdb] at hk
              cases hk
          · have := ih3 k hk
            simp only [List.mem_append, List.mem_cons, List.mem_singleton] at this ⊢
            tauto

theorem graphiteLoop_allFail (conns : List GEndpoint) (p : List Nat)
    (h : ∀ n ∈ p, ((conns.getD n gEpDflt).writeResult).isSome = true) :
    graphiteLoop conns p = (some graphiteCollectiveErr, p) := by
  induction p with
  | nil => rfl
  | cons n rest ih =>
    have hn := h n (List.mem_cons_self n rest)
    obtain ⟨e, he⟩ := Option.isSome_iff_exists.mp hn
    have ihr := ih (fun m hm => h m (List.mem_cons_of_mem n hm))
    unfold graphiteLoop
    rw [he, ihr]

theorem graphiteLoop_firstSuccess (conns : List GEndpoint) (xs ys : List Nat) (n : Nat)
    (hn : (conns.getD n gEpDflt).writeResult = none) :
    (graphiteLoop conns (xs ++ n :: ys)).1 = none ∧
    graphiteLoop conns (xs ++ n :: ys) = graphiteLoop conns (xs ++ [n]) ∧
    ∀ k, k ∈ (graphiteLoop conns (xs ++ n :: ys)).2 → k ∈ xs ++ [n] := by
  induction xs with
  | nil =>
    simp only [List.nil_append]
    unfold graphiteLoop
    rw [hn]
    refine ⟨rfl, rfl, ?_⟩
    intro k hk
    simp only [List.mem_singleton] at hk
    simp [hk]
  | cons m xs ih =>
    obtain ⟨ih1, ih2, ih3⟩ := ih
    cases hm : (conns.getD m gEpDflt).writeResult with
    | none =>
      simp only [List.cons_append]
      unfold graphiteLoop
      rw [hm]
      refine ⟨rfl, rfl, ?_⟩
      intro k hk
      simp only [List.mem_singleton] at hk
      simp [hk]
    | some e =>
      simp only [List.cons_append]
      unfold graphiteLoop
      rw [hm]
      dsimp only
      refine ⟨ih1, ?_, ?_⟩
      · rw [ih2]
      · intro k hk
        simp only [List.mem_cons] at hk
        rcases hk with hk | hk
        · simp [hk]
        · have := ih3 k hk
          simp only [List.mem_append, List.mem_cons, List.mem_singleton] at this ⊢
          tauto

theorem graphiteWrite_err_attempts (conns : List GEndpoint) (perm : List Nat)
    (dials : List (Option GEndpoint)) :
    (graphiteWrite none conns perm dials).err = (graphiteLoop conns perm).1 ∧
    (graphiteWrite none conns perm dials).attempts = (graphiteLoop conns perm).2 := by
  unfold graphiteWrite
  dsimp only
  cases h : (graphiteLoop conns perm).1 with
  | none => simp [h]
  | some e => simp [h]

theorem influxWrite_err_trace (inp : InfluxInput) (f : FreqTable) (ld : Int)
    (hpool : inp.conns.isEmpty = false) (hb : inp.batchErr = none) :
    (influxWrite inp f ld).err = (writeLoop inp.conns inp.perm).1 ∧
    (influxWrite inp f ld).trace = (writeLoop inp.conns inp.perm).2 := by
  unfold influxWrite
  simp only [hpool, Bool.false_eq_true, if_false, hb]
  constructor
  · split
    · split <;> rfl
    · rfl
  · split
    · split <;> rfl
    · rfl

theorem influxWrite_freq_char (inp : InfluxInput) (f : FreqTable) (ld : Int) :
    (influxWrite inp f ld).freq =
      (match (if inp.conns.isEmpty then inp.connect else Except.ok inp.conns) with
       | Except.error _ => f
       | Except.ok _ =>
         match inp.batchErr with
         | some _ => f
         | none =>
           (debugLoop inp.debugFilter inp.metrics (inp.debugFilter.length != 0) f).2) := by
  unfold influxWrite
  cases hpool : (if inp.conns.isEmpty then inp.connect else Except.ok inp.conns) with
  | error e => rfl
  | ok conns =>
    cases hb : inp.batchErr with
    | some e => rfl
    | none =>
      dsimp only
      split
      · split <;> rfl
      · rfl

theorem influxWrite_main (inp : InfluxInput) (f : FreqTable) (ld : Int)
    (hpool : inp.conns.isEmpty = false) (hb : inp.batchErr = none)
    (hdbg : (debugLoop inp.debugFilter inp.metrics (inp.debugFilter.length != 0) f).1 = true) :
    influxWrite inp f ld =
      ⟨(writeLoop inp.conns inp.perm).1,
       (debugLoop inp.debugFilter inp.metrics (inp.debugFilter.length != 0) f).2,
       if inp.now - ld > 60 * 1000000000 then inp.now else ld,
       (writeLoop inp.conns inp.perm).2,
       if inp.now - ld > 60 * 1000000000
         then some (dumpFreqTable
           (debugLoop inp.debugFilter inp.metrics (inp.debugFilter.length != 0) f).2)
         else none⟩ := by
  unfold influxWrite
  simp only [hpool, Bool.false_eq_true, if_false, hb, hdbg, if_true]
  by_cases ht : (60000000000 : Int) < inp.now - ld <;> simp [ht]

theorem influxWrite_freq_eq (inp : InfluxInput) (f : FreqTable) (ld1 ld2 : Int) :
    (influxWrite inp f ld1).freq = (influxWrite inp f ld2).freq := by
  rw [influxWrite_freq_char, influxWrite_freq_char]

theorem influxWrite_report_pure (inp : InfluxInput) (f : FreqTable) (ld : Int)
    (rows : List ReportRow) (h : (influxWrite inp f ld).report = some rows) :
    rows = dumpFreqTable (influxWrite inp f ld).freq := by
  revert h
  unfold influxWrite
  cases (if inp.conns.isEmpty then inp.connect else Except.ok inp.conns) with
  | error e =>
    intro h
    simp at h
  | ok conns =>
    cases inp.batchErr with
    | some e =>
      intro h
      simp at h
    | none =>
      dsimp only
      by_cases hdbg :
          (debugLoop inp.debugFilter inp.metrics (inp.debugFilter.length != 0) f).1 = true
      · rw [if_pos hdbg]
        by_cases ht : inp.now - ld > 60 * 1000000000
        · rw [if_pos ht]
          intro h
          injection h with h2
          exact h2.symm
        · rw [if_neg ht]
          intro h
          cases h
      · rw [if_neg hdbg]
        intro h
        cases h

theorem influxWrite_le (inp : InfluxInput) (f : FreqTable) (ld : Int) :
    tableLE f (influxWrite inp f ld).freq := by
  rw [influxWrite_freq_char]
  cases (if inp.conns.isEmpty then inp.connect else Except.ok inp.conns) with
  | error e => exact tableLE_refl f
  | ok conns =>
    cases inp.batchErr with
    | some e => exact tableLE_refl f
    | none => exact debugLoop_le _ _ _ f

theorem writeSeq_le (inps : List InfluxInput) (f : FreqTable) (ld : Int) :
    tableLE f (writeSeq inps (f, ld)).1 := by
  induction inps generalizing f ld with
  | nil => exact tableLE_refl f
  | cons inp rest ih =>
    have h1 := influxWrite_le inp f ld
    have h2 := ih (influxWrite inp f ld).freq (influxWrite inp f ld).lastDump
    simpa [writeSeq] using tableLE_trans h1 h2

/-- Concrete metrics for the debug-sampler witnesses: mA and mC match the
filter string f, mB does not. -/
def mA : Metric := ⟨"a", [("x", "y")], "fa"⟩

/-- A metric whose textual representation misses the filter string f. -/
def mB : Metric := ⟨"b", [("u", "w")], "zz"⟩

/-- A metric matching the filter string f, placed after the first miss. -/
def mC : Metric := ⟨"c", [("p", "q")], "fc"⟩

/-- C1: for a write call on a pool in which every endpoint rejects the write,
the call returns exactly the single collective-failure error (a fixed
constant, independent of and distinct from the per-endpoint error texts, so
it carries no per-endpoint detail), and every endpoint in the pool is
attempted exactly once; shown for both the InfluxDB and the Graphite
variant, with the trial order being any permutation of the pool indices. -/
theorem C1_all_fail_collective (inp : InfluxInput) (f : FreqTable) (ld : Int)
    (gconns : List GEndpoint) (gperm : List Nat) (dials : List (Option GEndpoint))
    (hpool : inp.conns.isEmpty = false) (hb : inp.batchErr = none)
    (hperm : List.Perm inp.perm (List.range inp.conns.length))
    (hfail : ∀ ep ∈ inp.conns, ep.writeResult.isSome = true)
    (hgperm : List.Perm gperm (List.range gconns.length))
    (hgfail : ∀ ep ∈ gconns, ep.writeResult.isSome = true) :
    (influxWrite inp f ld).err = some influxCollectiveErr ∧
    (∀ k, k < inp.conns.length →
      (attemptsOf (influxWrite inp f ld).trace).count k = 1) ∧
    (graphiteWrite none gconns gperm dials).err = some graphiteCollectiveErr ∧
    (∀ k, k < gconns.length →
      ((graphiteWrite none gconns gperm dials).attempts).count k = 1) := by
  have hfail2 : ∀ n ∈ inp.perm, ((inp.conns.getD n epDflt).writeResult).isSome = true := by
    intro n hnp
    have hlt : n < inp.conns.length := List.mem_range.mp (hperm.mem_iff.mp hnp)
    rw [List.getD_eq_getElem?_getD, List.getElem?_eq_getElem hlt]
    exact hfail _ (List.getElem_mem hlt)
  have hw := writeLoop_allFail inp.conns inp.perm hfail2
  have hproj := influxWrite_err_trace inp f ld hpool hb
  have hgfail2 : ∀ n ∈ gperm, ((gconns.getD n gEpDflt).writeResult).isSome = true := by
    intro n hnp
    have hlt : n < gconns.length := List.mem_range.mp (hgperm.mem_iff.mp hnp)
    rw [List.getD_eq_getElem?_getD, List.getElem?_eq_getElem hlt]
    exact hgfail _ (List.getElem_mem hlt)
  have hg := graphiteLoop_allFail gconns gperm hgfail2
  have hgproj := graphiteWrite_err_attempts gconns gperm dials
  refine ⟨?_, ?_, ?_, ?_⟩
  · rw [hproj.1, hw.1]
  · intro k hk
    rw [hproj.2, hw.2, hperm.count_eq k]
    exact List.count_eq_one_of_mem (List.nodup_range _) (List.mem_range.mpr hk)
  · rw [hgproj.1, hg]
  · intro k hk
    have hatt : (graphiteWrite none gconns gperm dials).attempts = gperm := by
      rw [hgproj.2, hg]
    rw [hatt, hgperm.count_eq k]
    exact List.count_eq_one_of_mem (List.nodup_range _) (List.mem_range.mpr hk)

/-- Witness for C1: two failing InfluxDB endpoints tried in order 1, 0 and
one failing Graphite endpoint. -/
theorem C1_all_fail_collective_witness :
    (influxWrite ⟨[⟨some ("e1"), none⟩, ⟨some ("e2"), none⟩],
        Except.ok [], none, "", [], [1, 0], 0⟩ [] 0).err = some influxCollectiveErr ∧
    (attemptsOf (influxWrite ⟨[⟨some ("e1"), none⟩, ⟨some ("e2"), none⟩],
        Except.ok [], none, "", [], [1, 0], 0⟩ [] 0).trace).count 0 = 1 ∧
    (graphiteWrite none [⟨some ("g1")⟩] [0] []).err = some graphiteCollectiveErr := by
  have h := C1_all_fail_collective
    ⟨[⟨some ("e1"), none⟩, ⟨some ("e2"), none⟩], Except.ok [], none, "", [], [1, 0], 0⟩
    [] 0 [⟨some ("g1")⟩] [0] [] rfl rfl (by decide) (by decide) (by decide) (by decide)
  exact ⟨h.1, h.2.1 0 (by decide), h.2.2.1⟩

/-- C2: if the endpoint at position k of the trial permutation accepts the
write, the loop result does not depend on the positions after k (so no later
endpoint is attempted: every attempted index comes from the prefix up to and
including position k) and the write call returns success; shown for both
variants. -/
theorem C2_first_success_short_circuit (inp : InfluxInput) (f : FreqTable) (ld : Int)
    (xs ys : List Nat) (n : Nat)
    (gconns : List GEndpoint) (gxs gys : List Nat) (gn : Nat)
    (dials : List (Option GEndpoint))
    (hpool : inp.conns.isEmpty = false) (hb : inp.batchErr = none)
    (hperm : inp.perm = xs ++ n :: ys)
    (hn : (inp.conns.getD n epDflt).writeResult = none)
    (hgn : (gconns.getD gn gEpDflt).writeResult = none) :
    (influxWrite inp f ld).err = none ∧
    (influxWrite inp f ld).trace = (writeLoop inp.conns (xs ++ [n])).2 ∧
    (∀ k, Ev.attempt k ∈ (influxWrite inp f ld).trace → k ∈ xs ++ [n]) ∧
    (graphiteWrite none gconns (gxs ++ gn :: gys) dials).err = none ∧
    (graphiteWrite none gconns (gxs ++ gn :: gys) dials).attempts
      = (graphiteLoop gconns (gxs ++ [gn])).2 ∧
    (∀ k, k ∈ (graphiteWrite none gconns (gxs ++ gn :: gys) dials).attempts →
      k ∈ gxs ++ [gn]) := by
  obtain ⟨h1, h2, h3⟩ := writeLoop_firstSuccess inp.conns xs ys n hn
  obtain ⟨g1, g2, g3⟩ := graphiteLoop_firstSuccess gconns gxs gys gn hgn
  have hproj := influxWrite_err_trace inp f ld hpool hb
  have hgproj := graphiteWrite_err_attempts gconns (gxs ++ gn :: gys) dials
  refine ⟨?_, ?_, ?_, ?_, ?_, ?_⟩
  · rw [hproj.1, hperm, h1]
  · rw [hproj.2, hperm, h2]
  · intro k hk
    rw [hproj.2, hperm] at hk
    exact h3 k hk
  · rw [hgproj.1, g1]
  · rw [hgproj.2, g2]
  · intro k hk
    rw [hgproj.2] at hk
    exact g3 k hk

/-- Witness for C2: a pool of three endpoints tried in order 0, 1, 2 where
index 0 fails and index 1 succeeds, and a one-endpoint Graphite pool. -/
theorem C2_first_success_short_circuit_witness :
    (influxWrite ⟨[⟨some ("e"), none⟩, ⟨none, none⟩, ⟨some ("e3"), none⟩],
        Except.ok [], none, "", [], [0, 1, 2], 0⟩ [] 0).err = none ∧
    (influxWrite ⟨[⟨some ("e"), none⟩, ⟨none, none⟩, ⟨some ("e3"), none⟩],
        Except.ok [], none, "", [], [0, 1, 2], 0⟩ [] 0).trace
      = (writeLoop [⟨some ("e"), none⟩, ⟨none, none⟩, ⟨some ("e3"), none⟩] [0, 1]).2 ∧
    (graphiteWrite none [⟨none⟩] [0, 0] []).err = none := by
  have h := C2_first_success_short_circuit
    ⟨[⟨some ("e"), none⟩, ⟨none, none⟩, ⟨some ("e3"), none⟩],
      Except.ok [], none, "", [], [0, 1, 2], 0⟩ [] 0 [0] [2] 1 [⟨none⟩] [] [0] 0 []
    rfl rfl rfl rfl rfl
  exact ⟨h.1, h.2.1, h.2.2.2.1⟩

/-- C3: the claim says a frequency-table entry equals N after the Debug
Sampler has observed its triple N times, with a missing path treated as an
implicit zero before the increment. The code (influxdb.go lines 258-261)
initializes a missing entry to 1 and then unconditionally increments, so a
triple observed once holds 2 and a triple observed twice holds 3; this
theorem evaluates the embedded sampler on those inputs, exhibiting the
off-by-one against the claim. -/
theorem C3_count_off_by_one :
    freqLookup (debugLoop ("f") [⟨"m", [("t", "v")], "mf"⟩] true []).2 ("m") ("t") ("v")
      = some 2 ∧
    freqLookup (debugLoop ("f") [⟨"m", [("t", "v")], "mf"⟩, ⟨"m", [("t", "v")], "mf"⟩]
        true []).2 ("m") ("t") ("v") = some 3 := by
  exact ⟨rfl, rfl⟩

/-- C4 counterexample: a dump trigger with sampling active and elapsed time
since the last dump exactly 60 seconds (60 * 10^9 ns, which is at least 60
seconds) emits no report, because the gate at influxdb.go line 291 is a
strict greater-than, contradicting the claim's at-least-60-seconds rule. -/
theorem C4_counterexample :
    ((influxWrite ⟨[⟨none, none⟩], Except.ok [], none, "f", [], [0], 60 * 1000000000⟩
        [] 0).report).isSome = false ∧
    (60 * 1000000000 : Int) - 0 ≥ 60 * 1000000000 := by
  exact ⟨rfl, by norm_num⟩

/-- C4 amended: the dump gate is a strict greater-than. A trigger whose
elapsed time since the last dump exceeds 60 seconds emits the report and
resets the timestamp to now; the next trigger emits again exactly when its
distance to the first one exceeds 60 seconds — so two triggers more than 60
seconds apart produce two reports and two triggers at most 60 seconds apart
produce one. -/
theorem C4_amended_strict_gate (inp1 inp2 : InfluxInput) (f : FreqTable) (ld : Int)
    (h1pool : inp1.conns.isEmpty = false) (h1b : inp1.batchErr = none)
    (h1dbg : (debugLoop inp1.debugFilter inp1.metrics
        (inp1.debugFilter.length != 0) f).1 = true)
    (h1t : inp1.now - ld > 60 * 1000000000)
    (h2pool : inp2.conns.isEmpty = false) (h2b : inp2.batchErr = none)
    (h2dbg : (debugLoop inp2.debugFilter inp2.metrics (inp2.debugFilter.length != 0)
        (influxWrite inp1 f ld).freq).1 = true) :
    ((influxWrite inp1 f ld).report).isSome = true ∧
    (influxWrite inp1 f ld).lastDump = inp1.now ∧
    ((influxWrite inp2 (influxWrite inp1 f ld).freq
        (influxWrite inp1 f ld).lastDump).report).isSome
      = decide (inp2.now - inp1.now > 60 * 1000000000) := by
  have hmain1 := influxWrite_main inp1 f ld h1pool h1b h1dbg
  have hrep1 : ((influxWrite inp1 f ld).report).isSome = true := by
    rw [hmain1]
    dsimp only
    rw [if_pos h1t]
    rfl
  have hld1 : (influxWrite inp1 f ld).lastDump = inp1.now := by
    rw [hmain1]
    dsimp only
    rw [if_pos h1t]
  have hmain2 := influxWrite_main inp2 (influxWrite inp1 f ld).freq
    (influxWrite inp1 f ld).lastDump h2pool h2b h2dbg
  refine ⟨hrep1, hld1, ?_⟩
  rw [hmain2, hld1]
  dsimp only
  by_cases ht2 : inp2.now - inp1.now > 60 * 1000000000
  · rw [if_pos ht2]
    simp
    omega
  · rw [if_neg ht2]
    simp
    omega

/-- Witness for the amended C4: a first trigger 61 s after the initial
timestamp dumps and resets; a second trigger 39 s later does not dump. -/
theorem C4_amended_strict_gate_witness :
    ((influxWrite ⟨[⟨none, none⟩], Except.ok [], none, "f", [], [0], 61 * 1000000000⟩
        [] 0).report).isSome = true ∧
    ((influxWrite ⟨[⟨none, none⟩], Except.ok [], none, "f", [], [0], 100 * 1000000000⟩
        (influxWrite ⟨[⟨none, none⟩], Except.ok [], none, "f", [], [0],
          61 * 1000000000⟩ [] 0).freq
        (influxWrite ⟨[⟨none, none⟩], Except.ok [], none, "f", [], [0],
          61 * 1000000000⟩ [] 0).lastDump).report).isSome
      = decide ((100 * 1000000000 : Int) - 61 * 1000000000 > 60 * 1000000000) := by
  have h := C4_amended_strict_gate
    ⟨[⟨none, none⟩], Except.ok [], none, "f", [], [0], 61 * 1000000000⟩
    ⟨[⟨none, none⟩], Except.ok [], none, "f", [], [0], 100 * 1000000000⟩
    [] 0 rfl rfl rfl (by norm_num) rfl rfl rfl
  exact ⟨h.1, h.2.2⟩

/-- C5: with a configured debug filter, once a processed metric's textual
representation fails to contain the filter substring, sampling is disabled
for the remainder of the batch: the final sampling state and frequency table
do not depend on the metrics after the first miss at all (so no later metric
updates the table, even one whose representation contains the filter), and
the final doDebug flag is false. -/
theorem C5_batch_short_circuit (flt : String) (pre : List Metric) (mt : Metric)
    (rest : List Metric) (t : FreqTable)
    (hpre : ∀ x ∈ pre, strContains x.str flt = true)
    (hmt : strContains mt.str flt = false) :
    debugLoop flt (pre ++ mt :: rest) true t = debugLoop flt (pre ++ [mt]) true t ∧
    (debugLoop flt (pre ++ mt :: rest) true t).1 = false := by
  have hm := debugLoop_matched flt pre t hpre
  constructor
  · rw [debugLoop_append, debugLoop_append, hm]
    dsimp only
    simp [debugLoop, hmt, debugLoop_offFalse]
  · rw [debugLoop_append, hm]
    dsimp only
    simp [debugLoop, hmt, debugLoop_offFalse]

/-- Witness for C5: the batch mA, mB, mC where mB misses the filter f and mC
matches it again; the outcome equals that of the batch stopped after mB. -/
theorem C5_batch_short_circuit_witness :
    debugLoop ("f") [mA, mB, mC] true [] = debugLoop ("f") [mA, mB] true [] ∧
    (debugLoop ("f") [mA, mB, mC] true []).1 = false := by
  have h := C5_batch_short_circuit ("f") [mA] mB [mC] [] (by decide) (by decide)
  exact ⟨h.1, h.2⟩

/-- C6 counterexample: a Graphite write against an empty pool returns the
collective write failure. No connect cycle precedes the attempts — the only
reconnect runs after the loop (here it even finds a healthy server, kept in
the resulting pool), yet the call still fails collectively, contradicting
the claim that an empty pool triggers a connect before any attempt and never
surfaces the collective failure. -/
theorem C6_counterexample :
    (graphiteWrite none [] [] [some ⟨none⟩]).err = some graphiteCollectiveErr ∧
    (graphiteWrite none [] [] [some ⟨none⟩]).attempts = [] ∧
    (graphiteWrite none [] [] [some ⟨none⟩]).conns = [⟨none⟩] := by
  exact ⟨rfl, rfl, rfl⟩

/-- C6 amended: in the InfluxDB variant the claim holds — a write on an empty
pool triggers Connect before any attempt, and a failed connect propagates
its error as the write's result, with no endpoint attempted and the table
untouched. In the Graphite variant there is no connect before the attempts:
an empty pool returns the collective failure and Connect (which never
returns an error) runs only after the failed loop. -/
theorem C6_amended_connect_first (inp : InfluxInput) (f : FreqTable) (ld : Int) (e : String)
    (hempty : inp.conns.isEmpty = true) (hc : inp.connect = Except.error e) :
    (influxWrite inp f ld).err = some e ∧
    (influxWrite inp f ld).trace = [] ∧
    (influxWrite inp f ld).freq = f := by
  unfold influxWrite
  rw [if_pos hempty, hc]
  exact ⟨rfl, rfl, rfl⟩

/-- Witness for the amended C6 at a concrete failed connect. -/
theorem C6_amended_connect_first_witness :
    (influxWrite ⟨[], Except.error ("dial failed"), none, "", [], [], 0⟩ [] 0).err
      = some ("dial failed") ∧
    (influxWrite ⟨[], Except.error ("dial failed"), none, "", [], [], 0⟩ [] 0).trace = [] := by
  have h := C6_amended_connect_first ⟨[], Except.error ("dial failed"), none, "", [], [], 0⟩
    [] 0 ("dial failed") rfl rfl
  exact ⟨h.1, h.2.1⟩

/-- C7 counterexample: an http endpoint whose transport handle builds fine
but whose idempotent database creation fails is dropped by Connect
(influxdb.go line 181: the loop continues without appending it), so the kept
pool is empty — contradicting the claim that such an endpoint is still kept
in the pool. -/
theorem C7_counterexample :
    connectLoop [EndpointCfg.http none (some ("db create failed"))] = Except.ok [] := by
  exact rfl

/-- C7 amended: a namespace-creation failure is logged and that endpoint is
dropped while connect continues with the remaining addresses; and a
transport-handle build failure does not merely drop that endpoint — it
aborts the whole connect call with that error (for http and udp alike). -/
theorem C7_amended_drop_on_create_failure (cerr : String) (cdb : Option String)
    (berr : String) (rest : List EndpointCfg) :
    connectLoop (EndpointCfg.http none (some cerr) :: rest) = connectLoop rest ∧
    connectLoop (EndpointCfg.http (some berr) cdb :: rest) = Except.error berr ∧
    connectLoop (EndpointCfg.udp (some berr) :: rest) = Except.error berr := by
  exact ⟨rfl, rfl, rfl⟩

/-- C8: a write failure whose error text contains the namespace-missing
marker adds exactly one repair event against that same endpoint to the
trace (never more), and the loop then continues with the remaining
permutation entries exactly as it would have, whatever the repair outcome. -/
theorem C8_one_repair_then_continue (conns : List Endpoint) (n : Nat) (rest : List Nat)
    (e : String)
    (hw : (conns.getD n epDflt).writeResult = some e)
    (hdb : strContains e dbNotFound = true) :
    writeLoop conns (n :: rest) =
      ((writeLoop conns rest).1,
        Ev.attempt n :: Ev.repair n ((conns.getD n epDflt).createDbResult).isNone
          :: (writeLoop conns rest).2) ∧
    repairsOf (writeLoop conns (n :: rest)).2 = repairsOf (writeLoop conns rest).2 + 1 := by
  have h1 : writeLoop conns (n :: rest) =
      ((writeLoop conns rest).1,
        Ev.attempt n :: Ev.repair n ((conns.getD n epDflt).createDbResult).isNone
          :: (writeLoop conns rest).2) := by
    simp only [writeLoop, hw, hdb, eq_self_iff_true, if_true, List.singleton_append]
  refine ⟨h1, ?_⟩
  rw [h1]
  rfl

/-- Witness for C8: one endpoint failing with the namespace-missing text and
a failing recreate query; exactly one repair is traced and the loop ends
with the collective error. -/
theorem C8_one_repair_then_continue_witness :
    writeLoop [⟨some dbNotFound, some ("recreate failed")⟩] [0]
      = (some influxCollectiveErr, [Ev.attempt 0, Ev.repair 0 false]) ∧
    repairsOf (writeLoop [⟨some dbNotFound, some ("recreate failed")⟩] [0]).2 = 1 := by
  have h := C8_one_repair_then_continue [⟨some dbNotFound, some ("recreate failed")⟩] 0 []
    dbNotFound rfl (by decide)
  exact ⟨h.1, h.2⟩

/-- C9: across any sequence of write calls, every frequency-table entry is
preserved with a non-decreasing count (no entry is ever removed); the table
produced by a write does not depend on the lastDump timestamp, so taking or
skipping the dump never changes counts; and whenever a report is emitted it
is exactly the pure dump of the resulting table. -/
theorem C9_table_invariants (inps : List InfluxInput) (f : FreqTable) (ld : Int)
    (m tn tv : String) (c : Int) (h : freqLookup f m tn tv = some c) :
    (∃ c2, freqLookup (writeSeq inps (f, ld)).1 m tn tv = some c2 ∧ c ≤ c2) ∧
    (∀ inp g ld1 ld2, (influxWrite inp g ld1).freq = (influxWrite inp g ld2).freq) ∧
    (∀ inp g ld0 rows, (influxWrite inp g ld0).report = some rows →
        rows = dumpFreqTable (influxWrite inp g ld0).freq) := by
  refine ⟨writeSeq_le inps f ld m tn tv c h, ?_, ?_⟩
  · intro inp g ld1 ld2
    exact influxWrite_freq_eq inp g ld1 ld2
  · intro inp g ld0 rows hrep
    exact influxWrite_report_pure inp g ld0 rows hrep

/-- Witness for C9: an existing entry with count 2 survives a write call
with a count at least 2. -/
theorem C9_table_invariants_witness :
    ∃ c2, freqLookup (writeSeq [⟨[⟨none, none⟩], Except.ok [], none, "", [], [0], 0⟩]
        ([("m", [("t", [("v", 2)])])], 0)).1 ("m") ("t") ("v") = some c2 ∧ (2 : Int) ≤ c2 := by
  exact (C9_table_invariants [⟨[⟨none, none⟩], Except.ok [], none, "", [], [0], 0⟩]
    [("m", [("t", [("v", 2)])])] 0 ("m") ("t") ("v") 2 rfl).1

/-- C10: in the InfluxDB variant with a non-empty filter, the first metric
whose textual representation misses the filter is still fully counted — the
final table is exactly the sample of that metric applied to the table
accumulated from the matching metrics before it — and the metrics after it
change nothing (sampling ends disabled). -/
theorem C10_first_miss_still_counted (flt : String) (pre : List Metric) (mt : Metric)
    (rest : List Metric) (t : FreqTable)
    (hpre : ∀ x ∈ pre, strContains x.str flt = true)
    (hmt : strContains mt.str flt = false) :
    debugLoop flt (pre ++ mt :: rest) true t =
      (false, sampleMetric (pre.foldl sampleMetric t) mt) := by
  rw [debugLoop_append, debugLoop_matched flt pre t hpre]
  dsimp only
  simp [debugLoop, hmt, debugLoop_offFalse]

/-- Witness for C10: in the batch mA, mB, the non-matching mB is still
sampled into the table before sampling shuts off. -/
theorem C10_first_miss_still_counted_witness :
    debugLoop ("f") [mA, mB] true [] = (false, sampleMetric (sampleMetric [] mA) mB) := by
  exact C10_first_miss_still_counted ("f") [mA] mB [] [] (by decide) (by decide)
